import Mathlib

/-!
Shallow embedding of the API gateway in `backend/api-gateway/src/server.js`.

The gateway validates bearer tokens, dispatches requests over the routes it
registers (public exceptions before the protected path families), rewrites the
leading `/v1` of the request URL to `/api`, decorates the outbound headers
with identity information, and aggregates backend swagger documents.

Paths, URLs and header values are modelled as `List Char`; header names and
JSON object keys as `String`.  The JWT library (`jsonwebtoken`) is external to
the repository, so token verification is a parameter
`verify : List Char → String → Option Identity` of every theorem: `verify tok
secret` returns the decoded payload when `tok` verifies under `secret`, and
`none` when verification throws.
-/

namespace Gateway

/-- Character list of a string literal (paths and header values are
modelled as `List Char`). -/
def chars (s : String) : List Char := s.data

/-- If `pat` is a leading segment of `p`, return the remainder of `p`,
else `none`.  Helper for Express path matching. -/
def listPrefixAt : List Char → List Char → Option (List Char)
  | [], s => some s
  | _, [] => none
  | a :: as, b :: bs => if a = b then listPrefixAt as bs else none

/-- Express exact route matching, as used by `app.get`/`app.post` with a
literal path: the request path equals the pattern, up to one trailing
slash. -/
def exactMatch (pat p : List Char) : Bool :=
  match listPrefixAt pat p with
  | some [] => true
  | some ['/'] => true
  | _ => false

/-- Express mount-point matching, as used by `app.use(pattern, ...)`: the
pattern is a leading segment of the request path, followed by nothing or by a
slash. -/
def mountMatch (pat p : List Char) : Bool :=
  match listPrefixAt pat p with
  | some [] => true
  | some ('/' :: _) => true
  | _ => false

/-- JavaScript `s.split(c)` on a single-character separator. -/
def splitOnChar (c : Char) : List Char → List (List Char)
  | [] => [[]]
  | a :: as =>
    match splitOnChar c as with
    | r :: rs => if a = c then [] :: r :: rs else (a :: r) :: rs
    | [] => if a = c then [[], []] else [[a]]

/-- HTTP request methods the gateway's CORS configuration admits. -/
inductive Method where
  | GET | POST | PUT | DELETE | PATCH | OPTIONS
deriving DecidableEq, Repr

/-- The four backend services the gateway proxies to. -/
inductive Backend where
  | user | worksheet | payment | notification
deriving DecidableEq, Repr

/-- `req.user` as set by `validateToken`:
`{ userId: decoded.userId, role: decoded.role }`. -/
structure Identity where
  userId : List Char
  role : Option (List Char)
deriving DecidableEq, Repr

/-- An inbound HTTP request: method, `req.originalUrl` (path plus optional
query string), and headers (names lower-cased by Node). -/
structure Req where
  method : Method
  url : List Char
  headers : List (String × List Char)
deriving DecidableEq, Repr

/-- The path portion of the request URL (Express matches routes against the
path, without the query string). -/
def reqPath (r : Req) : List Char := r.url.takeWhile (fun c => c ≠ '?')

/-- Association-list lookup by string key (header and JSON-object lookup). -/
def alookup {α : Type} (k : String) : List (String × α) → Option α
  | [] => none
  | kv :: t => if kv.1 = k then some kv.2 else alookup k t

/-- JavaScript property assignment `m[k] = v`: replace the binding in place
when the key is present, append it otherwise. -/
def jset {α : Type} (k : String) (v : α) (m : List (String × α)) : List (String × α) :=
  if m.any (fun kv => kv.1 = k) then
    m.map (fun kv => if kv.1 = k then (k, v) else kv)
  else m ++ [(k, v)]

/-- `auth.startsWith('Bearer ')` from `validateToken`. -/
def startsWithBearer (a : List Char) : Bool :=
  (listPrefixAt (chars "Bearer ") a).isSome

/-- `auth.split(' ')[1]` from `validateToken`: the second space-separated
piece of the header value. -/
def bearerToken (a : List Char) : List Char :=
  (splitOnChar ' ' a).getD 1 []

/-- Result of the `validateToken` middleware: a 401 rejection with a message,
or a decoded identity stored on the request. -/
inductive AuthCheck where
  | fail (message : String)
  | pass (u : Identity)
deriving DecidableEq, Repr

/-- The `validateToken` middleware (server.js lines 30-43).  `verify` models
`jwt.verify`: it yields the decoded payload or `none` when verification
throws.  A missing header or one not starting with `Bearer ` yields
401 `Unauthorized`; a token failing verification yields 401 `Invalid token`. -/
def validateToken (verify : List Char → String → Option Identity) (secret : String)
    (auth : Option (List Char)) : AuthCheck :=
  match auth with
  | none => .fail "Unauthorized"
  | some a =>
    if startsWithBearer a then
      match verify (bearerToken a) secret with
      | some d => .pass { userId := d.userId, role := d.role }
      | none => .fail "Invalid token"
    else .fail "Unauthorized"

/-- `process.env.JWT_SECRET || 'secret'` (server.js line 37): the secret the
gateway verifies with, given the optional environment variable.  An unset or
empty variable silently falls back to the string `secret`. -/
def effectiveSecret : Option String → String
  | none => "secret"
  | some s => if s = "" then "secret" else s

/-- `proxyReqPathResolver` (server.js line 17):
`req.originalUrl.replace(/^\/v1/, '/api')` — an anchored regex, so only a
leading `/v1` is rewritten and every other character is preserved. -/
def proxyReqPathResolver : List Char → List Char
  | '/' :: 'v' :: '1' :: rest => '/' :: 'a' :: 'p' :: 'i' :: rest
  | s => s

/-- The `if (srcReq.user)` block of `proxyReqOptDecorator` (server.js lines
19-22): when `req.user` is set, write `x-user-id`, and `x-user-role` only
when the role is truthy (present and non-empty). -/
def identityHeaders : Option Identity → List (String × List Char) → List (String × List Char)
  | none, h0 => h0
  | some u, h0 =>
    let a := jset "x-user-id" u.userId h0
    match u.role with
    | none => a
    | some role => if role ≠ [] then jset "x-user-role" role a else a

/-- The `if (srcReq.headers.authorization)` block of `proxyReqOptDecorator`
(server.js lines 23-25): copy the inbound `authorization` header when
present. -/
def authForward (srcHeaders h1 : List (String × List Char)) : List (String × List Char) :=
  match alookup "authorization" srcHeaders with
  | some v => jset "authorization" v h1
  | none => h1

/-- `proxyReqOptDecorator` (server.js lines 18-27) applied to the outbound
header object `h0` (initialised by the proxy library from the inbound
headers): the identity block followed by the authorization block. -/
def proxyReqOptDecorator (user : Option Identity) (srcHeaders : List (String × List Char))
    (h0 : List (String × List Char)) : List (String × List Char) :=
  authForward srcHeaders (identityHeaders user h0)

/-- Outbound headers of a forwarded request: the decorator applied to the
inbound headers (the proxy library starts `proxyReqOpts.headers` from
`srcReq.headers`). -/
def decorateHeaders (user : Option Identity) (r : Req) : List (String × List Char) :=
  proxyReqOptDecorator user r.headers r.headers

/-- The route layers registered on the Express app, in registration order
(server.js lines 54-108). -/
inductive Route where
  | health | root | swaggerJson | apiDocs
  | login | register | packagesList
  | userP | worksheetP | paymentP
  | notifP
  | noMatch
deriving DecidableEq, Repr

def isGet : Method → Bool
  | .GET => true
  | _ => false

def isPost : Method → Bool
  | .POST => true
  | _ => false

/-- Which registered layer handles a request, following Express's first-match
dispatch over the registration order of server.js: the local GET endpoints,
the swagger UI mount, the three public POST exceptions, the three
token-protected mounts, then the notification mount. -/
def route (m : Method) (p : List Char) : Route :=
  if isGet m && exactMatch (chars "/health") p then .health
  else if isGet m && exactMatch (chars "/") p then .root
  else if isGet m && exactMatch (chars "/swagger.json") p then .swaggerJson
  else if mountMatch (chars "/api-docs") p then .apiDocs
  else if isPost m && exactMatch (chars "/v1/user/login") p then .login
  else if isPost m && exactMatch (chars "/v1/user/register") p then .register
  else if isPost m && exactMatch (chars "/v1/payment/packages/list") p then .packagesList
  else if mountMatch (chars "/v1/user") p then .userP
  else if mountMatch (chars "/v1/worksheet") p then .worksheetP
  else if mountMatch (chars "/v1/payment") p then .paymentP
  else if mountMatch (chars "/v1/notification") p then .notifP
  else .noMatch

/-- The gateway's decision on a request: a locally served page, a JSON
rejection (status, `success` flag, message), a forwarded call to a backend
(with the rewritten URL and decorated headers), or a fall-through to
Express's default 404. -/
inductive Outcome where
  | page (status : Nat)
  | reject (status : Nat) (success : Bool) (message : String)
  | forward (b : Backend) (outUrl : List Char) (outHeaders : List (String × List Char))
  | fallthrough
deriving DecidableEq, Repr

/-- Build the forwarded request: rewrite the URL and decorate the headers. -/
def forwardTo (b : Backend) (user : Option Identity) (r : Req) : Outcome :=
  .forward b (proxyReqPathResolver r.url) (decorateHeaders user r)

/-- A protected mount: `validateToken` runs first; on failure the 401 JSON
`{ success: false, message }` is returned and no proxying happens, on success
the request is forwarded with the decoded identity. -/
def protectedForward (verify : List Char → String → Option Identity) (secret : String)
    (b : Backend) (r : Req) : Outcome :=
  match validateToken verify secret (alookup "authorization" r.headers) with
  | .fail m => .reject 401 false m
  | .pass u => forwardTo b (some u) r

/-- The gateway's handling of one request, combining dispatch, token
validation and proxy construction (server.js lines 54-108). -/
def handle (verify : List Char → String → Option Identity) (secret : String)
    (r : Req) : Outcome :=
  match route r.method (reqPath r) with
  | .health => .page 200
  | .root => .page 200
  | .swaggerJson => .page 200
  | .apiDocs => .page 200
  | .login => forwardTo .user none r
  | .register => forwardTo .user none r
  | .packagesList => forwardTo .payment none r
  | .userP => protectedForward verify secret .user r
  | .worksheetP => protectedForward verify secret .worksheet r
  | .paymentP => protectedForward verify secret .payment r
  | .notifP => forwardTo .notification none r
  | .noMatch => .fallthrough

/-- The outbound backend calls an outcome issues: one for a forward, none
otherwise. -/
def outboundCalls : Outcome → List (Backend × List Char × List (String × List Char))
  | .forward b u h => [(b, u, h)]
  | _ => []

/-- The protected path families of the claim: `/v1/user/**`,
`/v1/worksheet/**`, `/v1/payment/**`. -/
def protectedFamily (p : List Char) : Bool :=
  mountMatch (chars "/v1/user") p || mountMatch (chars "/v1/worksheet") p ||
    mountMatch (chars "/v1/payment") p

/-- The named public exceptions inside the protected families:
POST `/v1/user/login`, POST `/v1/user/register`,
POST `/v1/payment/packages/list`. -/
def publicException (m : Method) (p : List Char) : Bool :=
  isPost m && (exactMatch (chars "/v1/user/login") p ||
    exactMatch (chars "/v1/user/register") p ||
    exactMatch (chars "/v1/payment/packages/list") p)

/-- The claim's auth-failure condition on the `authorization` header: absent,
not starting with `Bearer `, or carrying a token that fails verification. -/
def authBad (verify : List Char → String → Option Identity) (secret : String) :
    Option (List Char) → Bool
  | none => true
  | some a => !(startsWithBearer a) || (verify (bearerToken a) secret).isNone

/-- `timeout: 30000` (server.js line 15): the bound, in milliseconds, on
every outbound proxied call. -/
def proxyTimeoutMs : Nat := 30000

/-- Body of the generic error response: `{ error: message }`. -/
structure ErrorBody where
  error : String
deriving DecidableEq, Repr

/-- The gateway's error-boundary middleware (server.js lines 110-112):
`res.status(500).json({ error: err.message || 'Internal server error' })`.
Every error reaching it — the proxy library passes non-timeout proxy errors,
connection failures included, to `next(err)` — becomes a 500. -/
def errorHandler (message : String) : Nat × ErrorBody :=
  (500, ⟨if message = "" then "Internal server error" else message⟩)

/-- A backend HTTP response as the proxy layer sees it. -/
structure BackendResponse where
  status : Nat
  headers : List (String × List Char)
  body : List Char
deriving DecidableEq, Repr

/-- The gateway's response relay.  `proxyOptions` (server.js lines 13-28)
configures no `userResDecorator` or `userResHeaderDecorator`, so the source
applies no transformation of its own to the backend's status, headers or
body: the response passes through unchanged. -/
def relayResponse (resp : BackendResponse) : BackendResponse := resp

/-- JSON-like values, enough to express the swagger documents the aggregator
merges. -/
inductive JVal where
  | str (s : String)
  | obj (fields : List (String × JVal))
  | arr (elems : List JVal)

/-- The two object-valued fields the aggregator reads from each fetched
swagger document: `data.paths` and `data.components` (each defaulted to `{}`
when missing, per `data.paths || {}`). -/
structure SwaggerDoc where
  paths : List (String × JVal)
  components : List (String × JVal)

/-- `Object.assign(tgt, src)`: copy the bindings of `src` into `tgt` in
order, later bindings overriding earlier ones. -/
def objAssign {α : Type} (tgt src : List (String × α)) : List (String × α) :=
  src.foldl (fun t kv => jset kv.1 kv.2 t) tgt

/-- The merge loop of the `/swagger.json` handler (server.js lines 77-85):
fold over the settled fetch results in the configured backend order (user,
worksheet, payment, notification), `Object.assign`-ing the `paths` and
`components` of each fulfilled result into the accumulators; a failed fetch
(`none`) is skipped. -/
def swaggerMerge (results : List (Option SwaggerDoc)) :
    List (String × JVal) × List (String × JVal) :=
  results.foldl
    (fun acc r =>
      match r with
      | some d => (objAssign acc.1 d.paths, objAssign acc.2 d.components)
      | none => acc)
    ([], [])

/-- The fixed `securitySchemes` object the handler always installs:
`{ bearerAuth: { type: 'http', scheme: 'bearer', bearerFormat: 'JWT' } }`. -/
def bearerSecuritySchemes : JVal :=
  .obj [("bearerAuth", .obj [("type", .str "http"), ("scheme", .str "bearer"),
    ("bearerFormat", .str "JWT")])]

/-- The global security requirement the handler always emits:
`[{ bearerAuth: [] }]`. -/
def globalSecurity : JVal := .arr [.obj [("bearerAuth", .arr [])]]

/-- The response of the `/swagger.json` endpoint. -/
structure SwaggerResponse where
  status : Nat
  openapi : String
  components : List (String × JVal)
  security : JVal
  paths : List (String × JVal)

/-- The `/swagger.json` handler (server.js lines 70-94), as a function of the
settled results of the four backend documentation fetches (the network is
external; a `none` entry is a fetch that was rejected or returned no data).
It always responds 200 with the merged paths, the merged components with
`securitySchemes` overwritten by the fixed bearer scheme, and the global
security requirement. -/
def swaggerHandler (results : List (Option SwaggerDoc)) : SwaggerResponse :=
  let m := swaggerMerge results
  { status := 200
    openapi := "3.0.0"
    components := jset "securitySchemes" bearerSecuritySchemes m.2
    security := globalSecurity
    paths := m.1 }

/-- The fulfilled fetch results, in configured order. -/
def successes (results : List (Option SwaggerDoc)) : List SwaggerDoc :=
  results.filterMap id

/-- First-some choice on options (strict version of `orElse`). -/
def oor {α : Type} : Option α → Option α → Option α
  | some a, _ => some a
  | none, b => b

/-- The spec's merge, in its own words: the value of key `k` is the
last-write-wins choice over the successful documents in configured order —
the contribution of the latest document that binds `k` (within one document,
the latest binding). -/
def lastWriteWins (f : SwaggerDoc → List (String × JVal))
    (docs : List SwaggerDoc) (k : String) : Option JVal :=
  docs.foldr (fun d acc => oor acc (alookup k (f d).reverse)) none

/-! ### Association-list and option lemmas -/

lemma oor_assoc {α : Type} (a b c : Option α) : oor (oor a b) c = oor a (oor b c) := by
  cases a <;> cases b <;> rfl

lemma oor_none_right {α : Type} (a : Option α) : oor a none = a := by
  cases a <;> rfl

lemma oor_oor_some {α : Type} (a : Option α) (b : α) (c : Option α) :
    oor (oor a (some b)) c = oor a (some b) := by
  cases a <;> rfl

lemma alookup_append {α : Type} (k : String) (l₁ l₂ : List (String × α)) :
    alookup k (l₁ ++ l₂) = oor (alookup k l₁) (alookup k l₂) := by
  induction l₁ with
  | nil => simp [alookup, oor]
  | cons kv t ih =>
    by_cases hk : kv.1 = k
    · simp [alookup, hk, oor]
    · simp [alookup, hk, ih]

lemma alookup_jset_self {α : Type} (k : String) (v : α) (m : List (String × α)) :
    alookup k (jset k v m) = some v := by
  unfold jset
  split
  · next hany =>
    induction m with
    | nil => simp at hany
    | cons kv t ih =>
      by_cases hk : kv.1 = k
      · simp [alookup, hk]
      · simp only [List.any_cons, Bool.or_eq_true, decide_eq_true_eq] at hany
        rcases hany with h | h
        · exact absurd h hk
        · simpa [alookup, hk] using ih (by simpa using h)
  · next hany =>
    induction m with
    | nil => simp [alookup]
    | cons kv t ih =>
      simp only [List.any_cons, Bool.or_eq_true, decide_eq_true_eq, not_or] at hany
      simpa [alookup, hany.1] using ih (by simp [hany.2])

lemma alookup_map_jset {α : Type} (k k' : String) (v : α) (h : k' ≠ k) :
    ∀ m : List (String × α),
      alookup k' (m.map (fun kv => if kv.1 = k then (k, v) else kv)) = alookup k' m
  | [] => rfl
  | kv :: t => by
    have hne : ¬(k = k') := fun hh => h hh.symm
    by_cases hk : kv.1 = k
    · have hne2 : ¬(kv.1 = k') := by rw [hk]; exact hne
      simp only [List.map_cons, hk, if_pos]
      simp [alookup, hne, hne2, alookup_map_jset k k' v h t]
    · simp only [List.map_cons, hk, if_neg, ite_false]
      by_cases hk' : kv.1 = k'
      · simp [alookup, hk']
      · simp [alookup, hk', alookup_map_jset k k' v h t]

lemma alookup_jset_other {α : Type} (k k' : String) (v : α) (m : List (String × α))
    (h : k' ≠ k) : alookup k' (jset k v m) = alookup k' m := by
  unfold jset
  split
  · exact alookup_map_jset k k' v h m
  · rw [alookup_append]
    have hne : ¬(k = k') := fun hh => h hh.symm
    have h1 : alookup k' [(k, v)] = none := by simp [alookup, hne]
    rw [h1, oor_none_right]

lemma objAssign_alookup {α : Type} (k : String) (tgt src : List (String × α)) :
    alookup k (objAssign tgt src) = oor (alookup k src.reverse) (alookup k tgt) := by
  induction src generalizing tgt with
  | nil => simp [objAssign, alookup, oor]
  | cons kv t ih =>
    show alookup k (objAssign (jset kv.1 kv.2 tgt) t) = _
    rw [ih, List.reverse_cons, alookup_append]
    by_cases hk : kv.1 = k
    · subst hk
      rw [alookup_jset_self]
      have h2 : alookup kv.1 [(kv.1, kv.2)] = some kv.2 := by simp [alookup]
      rw [h2, oor_oor_some]
    · have h2 : alookup k [(kv.1, kv.2)] = none := by simp [alookup, hk]
      rw [h2, oor_none_right, alookup_jset_other kv.1 k kv.2 tgt (fun hh => hk hh.symm)]

lemma swaggerMerge_paths_alookup (k : String) (results : List (Option SwaggerDoc)) :
    alookup k (swaggerMerge results).1 = lastWriteWins (fun d => d.paths) (successes results) k := by
  suffices h : ∀ init : List (String × JVal) × List (String × JVal),
      alookup k (results.foldl
        (fun acc r => match r with
          | some d => (objAssign acc.1 d.paths, objAssign acc.2 d.components)
          | none => acc) init).1 =
      oor (lastWriteWins (fun d => d.paths) (successes results) k) (alookup k init.1) by
    simpa [swaggerMerge, alookup, oor_none_right] using h ([], [])
  induction results with
  | nil => intro init; simp [successes, lastWriteWins, oor]
  | cons r t ih =>
    intro init
    cases r with
    | none => simpa [successes, lastWriteWins] using ih init
    | some d =>
      simp only [List.foldl_cons]
      rw [ih]
      simp [successes, lastWriteWins, objAssign_alookup, oor_assoc]

/-! ### Path-matching lemmas -/

lemma listPrefixAt_self_append (pat r : List Char) :
    listPrefixAt pat (pat ++ r) = some r := by
  induction pat with
  | nil => simp [listPrefixAt]
  | cons a as ih => simp [listPrefixAt, ih]

lemma listPrefixAt_self (pat : List Char) : listPrefixAt pat pat = some [] := by
  have h := listPrefixAt_self_append pat []
  simpa using h

lemma listPrefixAt_eq_append (pat p r : List Char) (h : listPrefixAt pat p = some r) :
    p = pat ++ r := by
  induction pat generalizing p with
  | nil =>
    have h' : p = r := by simpa [listPrefixAt] using h
    simpa using h'
  | cons a as ih =>
    cases p with
    | nil => simp [listPrefixAt] at h
    | cons b bs =>
      by_cases hab : a = b
      · subst hab
        rw [listPrefixAt, if_pos rfl] at h
        simpa using ih bs h
      · rw [listPrefixAt, if_neg hab] at h
        exact absurd h (by simp)

lemma listPrefixAt_append_none (pat q r : List Char)
    (h1 : listPrefixAt pat q = none) (h2 : listPrefixAt q pat = none) :
    listPrefixAt pat (q ++ r) = none := by
  induction pat generalizing q with
  | nil => simp [listPrefixAt] at h1
  | cons a as ih =>
    cases q with
    | nil => simp [listPrefixAt] at h2
    | cons b bs =>
      by_cases hab : a = b
      · subst hab
        rw [listPrefixAt, if_pos rfl] at h1
        rw [listPrefixAt, if_pos rfl] at h2
        simpa [listPrefixAt] using ih bs h1 h2
      · simp [listPrefixAt, hab]

lemma exactMatch_of_none (pat p : List Char) (h : listPrefixAt pat p = none) :
    exactMatch pat p = false := by
  simp [exactMatch, h]

lemma mountMatch_of_none (pat p : List Char) (h : listPrefixAt pat p = none) :
    mountMatch pat p = false := by
  simp [mountMatch, h]

lemma exactMatch_append_false (pat q r : List Char)
    (h1 : listPrefixAt pat q = none) (h2 : listPrefixAt q pat = none) :
    exactMatch pat (q ++ r) = false :=
  exactMatch_of_none pat (q ++ r) (listPrefixAt_append_none pat q r h1 h2)

lemma mountMatch_append_false (pat q r : List Char)
    (h1 : listPrefixAt pat q = none) (h2 : listPrefixAt q pat = none) :
    mountMatch pat (q ++ r) = false :=
  mountMatch_of_none pat (q ++ r) (listPrefixAt_append_none pat q r h1 h2)

lemma exactMatch_elim (pat p : List Char) (h : exactMatch pat p = true) :
    ∃ r, p = pat ++ r ∧ (r = [] ∨ r = ['/']) := by
  unfold exactMatch at h
  split at h
  · next heq => exact ⟨[], listPrefixAt_eq_append pat p [] heq, Or.inl rfl⟩
  · next heq => exact ⟨['/'], listPrefixAt_eq_append pat p ['/'] heq, Or.inr rfl⟩
  · exact absurd h (by simp)

lemma mountMatch_elim (pat p : List Char) (h : mountMatch pat p = true) :
    ∃ r, p = pat ++ r ∧ (r = [] ∨ ∃ t, r = '/' :: t) := by
  unfold mountMatch at h
  split at h
  · next heq => exact ⟨[], listPrefixAt_eq_append pat p [] heq, Or.inl rfl⟩
  · next t heq =>
    exact ⟨'/' :: t, listPrefixAt_eq_append pat p ('/' :: t) heq, Or.inr ⟨t, rfl⟩⟩
  · exact absurd h (by simp)

lemma exactMatch_self_append (pat r : List Char) (hs : r = [] ∨ r = ['/']) :
    exactMatch pat (pat ++ r) = true := by
  rcases hs with rfl | rfl <;>
    simp [exactMatch, listPrefixAt_self_append, listPrefixAt_self]

lemma mountMatch_self_append (pat r : List Char) (hs : r = [] ∨ ∃ t, r = '/' :: t) :
    mountMatch pat (pat ++ r) = true := by
  rcases hs with rfl | ⟨t, rfl⟩ <;>
    simp [mountMatch, listPrefixAt_self_append, listPrefixAt_self]

lemma swaggerMerge_components_alookup (k : String) (results : List (Option SwaggerDoc)) :
    alookup k (swaggerMerge results).2 =
      lastWriteWins (fun d => d.components) (successes results) k := by
  suffices h : ∀ init : List (String × JVal) × List (String × JVal),
      alookup k (results.foldl
        (fun acc r => match r with
          | some d => (objAssign acc.1 d.paths, objAssign acc.2 d.components)
          | none => acc) init).2 =
      oor (lastWriteWins (fun d => d.components) (successes results) k) (alookup k init.2) by
    simpa [swaggerMerge, alookup, oor_none_right] using h ([], [])
  induction results with
  | nil => intro init; simp [successes, lastWriteWins, oor]
  | cons r t ih =>
    intro init
    cases r with
    | none => simpa [successes, lastWriteWins] using ih init
    | some d =>
      simp only [List.foldl_cons]
      rw [ih]
      simp [successes, lastWriteWins, objAssign_alookup, oor_assoc]

/-! ### Route dispatch lemmas -/

lemma isGet_of_isPost (m : Method) (h : isPost m = true) : isGet m = false := by
  cases m <;> simp_all [isPost, isGet]

lemma route_userP (m : Method) (r : List Char) (hs : r = [] ∨ ∃ t, r = '/' :: t)
    (hx : publicException m (chars "/v1/user" ++ r) = false) :
    route m (chars "/v1/user" ++ r) = Route.userP := by
  have e1 : exactMatch (chars "/health") (chars "/v1/user" ++ r) = false :=
    exactMatch_append_false _ _ r (by decide) (by decide)
  have e2 : exactMatch (chars "/") (chars "/v1/user" ++ r) = false := by
    simp [chars, exactMatch, listPrefixAt]
  have e3 : exactMatch (chars "/swagger.json") (chars "/v1/user" ++ r) = false :=
    exactMatch_append_false _ _ r (by decide) (by decide)
  have e4 : mountMatch (chars "/api-docs") (chars "/v1/user" ++ r) = false :=
    mountMatch_append_false _ _ r (by decide) (by decide)
  have m1 : mountMatch (chars "/v1/user") (chars "/v1/user" ++ r) = true :=
    mountMatch_self_append _ r hs
  unfold publicException at hx
  cases hp : isPost m with
  | false => simp [route, e1, e2, e3, e4, hp, m1]
  | true =>
    rw [hp] at hx
    simp only [Bool.true_and, Bool.or_eq_false_iff] at hx
    simp [route, e1, e2, e3, e4, hp, hx.1.1, hx.1.2, hx.2, m1]

lemma route_worksheetP (m : Method) (r : List Char) (hs : r = [] ∨ ∃ t, r = '/' :: t) :
    route m (chars "/v1/worksheet" ++ r) = Route.worksheetP := by
  have e1 : exactMatch (chars "/health") (chars "/v1/worksheet" ++ r) = false :=
    exactMatch_append_false _ _ r (by decide) (by decide)
  have e2 : exactMatch (chars "/") (chars "/v1/worksheet" ++ r) = false := by
    simp [chars, exactMatch, listPrefixAt]
  have e3 : exactMatch (chars "/swagger.json") (chars "/v1/worksheet" ++ r) = false :=
    exactMatch_append_false _ _ r (by decide) (by decide)
  have e4 : mountMatch (chars "/api-docs") (chars "/v1/worksheet" ++ r) = false :=
    mountMatch_append_false _ _ r (by decide) (by decide)
  have eL : exactMatch (chars "/v1/user/login") (chars "/v1/worksheet" ++ r) = false :=
    exactMatch_append_false _ _ r (by decide) (by decide)
  have eR : exactMatch (chars "/v1/user/register") (chars "/v1/worksheet" ++ r) = false :=
    exactMatch_append_false _ _ r (by decide) (by decide)
  have eP : exactMatch (chars "/v1/payment/packages/list") (chars "/v1/worksheet" ++ r) = false :=
    exactMatch_append_false _ _ r (by decide) (by decide)
  have m1 : mountMatch (chars "/v1/user") (chars "/v1/worksheet" ++ r) = false :=
    mountMatch_append_false _ _ r (by decide) (by decide)
  have m2 : mountMatch (chars "/v1/worksheet") (chars "/v1/worksheet" ++ r) = true :=
    mountMatch_self_append _ r hs
  simp [route, e1, e2, e3, e4, eL, eR, eP, m1, m2]

lemma route_paymentP (m : Method) (r : List Char) (hs : r = [] ∨ ∃ t, r = '/' :: t)
    (hx : publicException m (chars "/v1/payment" ++ r) = false) :
    route m (chars "/v1/payment" ++ r) = Route.paymentP := by
  have e1 : exactMatch (chars "/health") (chars "/v1/payment" ++ r) = false :=
    exactMatch_append_false _ _ r (by decide) (by decide)
  have e2 : exactMatch (chars "/") (chars "/v1/payment" ++ r) = false := by
    simp [chars, exactMatch, listPrefixAt]
  have e3 : exactMatch (chars "/swagger.json") (chars "/v1/payment" ++ r) = false :=
    exactMatch_append_false _ _ r (by decide) (by decide)
  have e4 : mountMatch (chars "/api-docs") (chars "/v1/payment" ++ r) = false :=
    mountMatch_append_false _ _ r (by decide) (by decide)
  have eL : exactMatch (chars "/v1/user/login") (chars "/v1/payment" ++ r) = false :=
    exactMatch_append_false _ _ r (by decide) (by decide)
  have eR : exactMatch (chars "/v1/user/register") (chars "/v1/payment" ++ r) = false :=
    exactMatch_append_false _ _ r (by decide) (by decide)
  have m1 : mountMatch (chars "/v1/user") (chars "/v1/payment" ++ r) = false :=
    mountMatch_append_false _ _ r (by decide) (by decide)
  have m2 : mountMatch (chars "/v1/worksheet") (chars "/v1/payment" ++ r) = false :=
    mountMatch_append_false _ _ r (by decide) (by decide)
  have m3 : mountMatch (chars "/v1/payment") (chars "/v1/payment" ++ r) = true :=
    mountMatch_self_append _ r hs
  unfold publicException at hx
  cases hp : isPost m with
  | false => simp [route, e1, e2, e3, e4, hp, eL, eR, m1, m2, m3]
  | true =>
    rw [hp] at hx
    simp only [Bool.true_and, Bool.or_eq_false_iff] at hx
    simp [route, e1, e2, e3, e4, hp, eL, eR, hx.2, m1, m2, m3]

lemma route_notifP (m : Method) (r : List Char) (hs : r = [] ∨ ∃ t, r = '/' :: t) :
    route m (chars "/v1/notification" ++ r) = Route.notifP := by
  have e1 : exactMatch (chars "/health") (chars "/v1/notification" ++ r) = false :=
    exactMatch_append_false _ _ r (by decide) (by decide)
  have e2 : exactMatch (chars "/") (chars "/v1/notification" ++ r) = false := by
    simp [chars, exactMatch, listPrefixAt]
  have e3 : exactMatch (chars "/swagger.json") (chars "/v1/notification" ++ r) = false :=
    exactMatch_append_false _ _ r (by decide) (by decide)
  have e4 : mountMatch (chars "/api-docs") (chars "/v1/notification" ++ r) = false :=
    mountMatch_append_false _ _ r (by decide) (by decide)
  have eL : exactMatch (chars "/v1/user/login") (chars "/v1/notification" ++ r) = false :=
    exactMatch_append_false _ _ r (by decide) (by decide)
  have eR : exactMatch (chars "/v1/user/register") (chars "/v1/notification" ++ r) = false :=
    exactMatch_append_false _ _ r (by decide) (by decide)
  have eP : exactMatch (chars "/v1/payment/packages/list") (chars "/v1/notification" ++ r) = false :=
    exactMatch_append_false _ _ r (by decide) (by decide)
  have m1 : mountMatch (chars "/v1/user") (chars "/v1/notification" ++ r) = false :=
    mountMatch_append_false _ _ r (by decide) (by decide)
  have m2 : mountMatch (chars "/v1/worksheet") (chars "/v1/notification" ++ r) = false :=
    mountMatch_append_false _ _ r (by decide) (by decide)
  have m3 : mountMatch (chars "/v1/payment") (chars "/v1/notification" ++ r) = false :=
    mountMatch_append_false _ _ r (by decide) (by decide)
  have m4 : mountMatch (chars "/v1/notification") (chars "/v1/notification" ++ r) = true :=
    mountMatch_self_append _ r hs
  simp [route, e1, e2, e3, e4, eL, eR, eP, m1, m2, m3, m4]

lemma route_login (m : Method) (r : List Char) (hs : r = [] ∨ r = ['/'])
    (hp : isPost m = true) :
    route m (chars "/v1/user/login" ++ r) = Route.login := by
  have hg := isGet_of_isPost m hp
  have e4 : mountMatch (chars "/api-docs") (chars "/v1/user/login" ++ r) = false :=
    mountMatch_append_false _ _ r (by decide) (by decide)
  have eL : exactMatch (chars "/v1/user/login") (chars "/v1/user/login" ++ r) = true :=
    exactMatch_self_append _ r hs
  simp [route, hg, e4, hp, eL]

lemma route_register (m : Method) (r : List Char) (hs : r = [] ∨ r = ['/'])
    (hp : isPost m = true) :
    route m (chars "/v1/user/register" ++ r) = Route.register := by
  have hg := isGet_of_isPost m hp
  have e4 : mountMatch (chars "/api-docs") (chars "/v1/user/register" ++ r) = false :=
    mountMatch_append_false _ _ r (by decide) (by decide)
  have eL : exactMatch (chars "/v1/user/login") (chars "/v1/user/register" ++ r) = false :=
    exactMatch_append_false _ _ r (by decide) (by decide)
  have eR : exactMatch (chars "/v1/user/register") (chars "/v1/user/register" ++ r) = true :=
    exactMatch_self_append _ r hs
  simp [route, hg, e4, hp, eL, eR]

lemma route_packagesList (m : Method) (r : List Char) (hs : r = [] ∨ r = ['/'])
    (hp : isPost m = true) :
    route m (chars "/v1/payment/packages/list" ++ r) = Route.packagesList := by
  have hg := isGet_of_isPost m hp
  have e4 : mountMatch (chars "/api-docs") (chars "/v1/payment/packages/list" ++ r) = false :=
    mountMatch_append_false _ _ r (by decide) (by decide)
  have eL : exactMatch (chars "/v1/user/login") (chars "/v1/payment/packages/list" ++ r) = false :=
    exactMatch_append_false _ _ r (by decide) (by decide)
  have eR : exactMatch (chars "/v1/user/register") (chars "/v1/payment/packages/list" ++ r) = false :=
    exactMatch_append_false _ _ r (by decide) (by decide)
  have eP : exactMatch (chars "/v1/payment/packages/list")
      (chars "/v1/payment/packages/list" ++ r) = true :=
    exactMatch_self_append _ r hs
  simp [route, hg, e4, hp, eL, eR, eP]

/-! ### Handle-level lemmas -/

lemma validateToken_fail_of_authBad (verify : List Char → String → Option Identity)
    (secret : String) (auth : Option (List Char)) (ha : authBad verify secret auth = true) :
    ∃ msg, validateToken verify secret auth = .fail msg := by
  cases auth with
  | none => exact ⟨"Unauthorized", rfl⟩
  | some a =>
    simp only [authBad] at ha
    by_cases hb : startsWithBearer a = true
    · rw [hb] at ha
      simp only [Bool.not_true, Bool.false_or, Option.isNone_iff_eq_none] at ha
      exact ⟨"Invalid token", by simp [validateToken, hb, ha]⟩
    · exact ⟨"Unauthorized", by simp [validateToken, hb]⟩

lemma handle_forward_url (verify : List Char → String → Option Identity)
    (secret : String) (r : Req) (b : Backend) (ou : List Char)
    (hs : List (String × List Char)) (h : handle verify secret r = .forward b ou hs) :
    ou = proxyReqPathResolver r.url := by
  unfold handle at h
  cases hrt : route r.method (reqPath r) <;> rw [hrt] at h <;>
    first
      | (simp only [forwardTo, Outcome.forward.injEq] at h; exact h.2.1.symm)
      | (unfold protectedForward at h
         cases hv : validateToken verify secret (alookup "authorization" r.headers) <;>
           rw [hv] at h
         · simp at h
         · simp only [forwardTo, Outcome.forward.injEq] at h
           exact h.2.1.symm)
      | (simp at h)

set_option maxHeartbeats 1000000 in
lemma route_v1_shape (m : Method) (p : List Char) :
    route m p = .health ∨ route m p = .root ∨ route m p = .swaggerJson ∨
      route m p = .apiDocs ∨ route m p = .noMatch ∨ ∃ t, p = chars "/v1" ++ t := by
  unfold route
  split
  · exact Or.inl rfl
  split
  · exact Or.inr (Or.inl rfl)
  split
  · exact Or.inr (Or.inr (Or.inl rfl))
  split
  · exact Or.inr (Or.inr (Or.inr (Or.inl rfl)))
  split
  · next h =>
    rw [Bool.and_eq_true] at h
    have he := h.2
    obtain ⟨r, rfl, _⟩ := exactMatch_elim _ _ he
    exact Or.inr (Or.inr (Or.inr (Or.inr (Or.inr
      ⟨chars "/user/login" ++ r, by simp [chars]⟩))))
  split
  · next h =>
    rw [Bool.and_eq_true] at h
    have he := h.2
    obtain ⟨r, rfl, _⟩ := exactMatch_elim _ _ he
    exact Or.inr (Or.inr (Or.inr (Or.inr (Or.inr
      ⟨chars "/user/register" ++ r, by simp [chars]⟩))))
  split
  · next h =>
    rw [Bool.and_eq_true] at h
    have he := h.2
    obtain ⟨r, rfl, _⟩ := exactMatch_elim _ _ he
    exact Or.inr (Or.inr (Or.inr (Or.inr (Or.inr
      ⟨chars "/payment/packages/list" ++ r, by simp [chars]⟩))))
  split
  · next h =>
    obtain ⟨r, rfl, _⟩ := mountMatch_elim _ _ h
    exact Or.inr (Or.inr (Or.inr (Or.inr (Or.inr
      ⟨chars "/user" ++ r, by simp [chars]⟩))))
  split
  · next h =>
    obtain ⟨r, rfl, _⟩ := mountMatch_elim _ _ h
    exact Or.inr (Or.inr (Or.inr (Or.inr (Or.inr
      ⟨chars "/worksheet" ++ r, by simp [chars]⟩))))
  split
  · next h =>
    obtain ⟨r, rfl, _⟩ := mountMatch_elim _ _ h
    exact Or.inr (Or.inr (Or.inr (Or.inr (Or.inr
      ⟨chars "/payment" ++ r, by simp [chars]⟩))))
  split
  · next h =>
    obtain ⟨r, rfl, _⟩ := mountMatch_elim _ _ h
    exact Or.inr (Or.inr (Or.inr (Or.inr (Or.inr
      ⟨chars "/notification" ++ r, by simp [chars]⟩))))
  · exact Or.inr (Or.inr (Or.inr (Or.inr (Or.inl rfl))))

/-! ### Claim theorems -/

/-- C1: for every request whose path falls under a protected family
(`/v1/user/**`, `/v1/worksheet/**`, `/v1/payment/**`) and is not one of the
named public exceptions, if the Authorization header is absent, does not
start with `Bearer `, or carries a token that fails verification, the gateway
responds 401 with a body of shape `{success:false, message}` and issues no
outbound backend call. -/
theorem claim_C1_protected_auth_401 (verify : List Char → String → Option Identity)
    (secret : String) (r : Req)
    (hf : protectedFamily (reqPath r) = true)
    (hx : publicException r.method (reqPath r) = false)
    (ha : authBad verify secret (alookup "authorization" r.headers) = true) :
    (∃ msg, handle verify secret r = .reject 401 false msg) ∧
      outboundCalls (handle verify secret r) = [] := by
  obtain ⟨msg, hval⟩ := validateToken_fail_of_authBad verify secret _ ha
  unfold protectedFamily at hf
  simp only [Bool.or_eq_true] at hf
  have hroute : route r.method (reqPath r) = .userP ∨
      route r.method (reqPath r) = .worksheetP ∨
      route r.method (reqPath r) = .paymentP := by
    rcases hf with (hm | hm) | hm
    · obtain ⟨rest, hpeq, hshape⟩ := mountMatch_elim _ _ hm
      rw [hpeq] at hx ⊢
      exact Or.inl (route_userP r.method rest hshape hx)
    · obtain ⟨rest, hpeq, hshape⟩ := mountMatch_elim _ _ hm
      rw [hpeq]
      exact Or.inr (Or.inl (route_worksheetP r.method rest hshape))
    · obtain ⟨rest, hpeq, hshape⟩ := mountMatch_elim _ _ hm
      rw [hpeq] at hx ⊢
      exact Or.inr (Or.inr (route_paymentP r.method rest hshape hx))
  rcases hroute with hr | hr | hr <;>
    exact ⟨⟨msg, by simp [handle, hr, protectedForward, hval]⟩,
      by simp [handle, hr, protectedForward, hval, outboundCalls]⟩

/-- The public routes and their targets, as the claim names them: the three
POST exceptions and the notification family. -/
def publicTarget (m : Method) (p : List Char) : Option Backend :=
  if isPost m && exactMatch (chars "/v1/user/login") p then some .user
  else if isPost m && exactMatch (chars "/v1/user/register") p then some .user
  else if isPost m && exactMatch (chars "/v1/payment/packages/list") p then some .payment
  else if mountMatch (chars "/v1/notification") p then some .notification
  else none

/-- C3: every request to POST `/v1/user/login`, POST `/v1/user/register`,
POST `/v1/payment/packages/list`, or any path under `/v1/notification/**` is
forwarded to the corresponding backend with no identity attached, whatever
the Authorization header holds; the outcome is the same for every
verification function and secret, so token validation is never consulted on
these routes. -/
theorem claim_C3_public_routes_forward (verify : List Char → String → Option Identity)
    (secret : String) (r : Req) (b : Backend)
    (h : publicTarget r.method (reqPath r) = some b) :
    handle verify secret r = .forward b (proxyReqPathResolver r.url) (decorateHeaders none r) := by
  unfold publicTarget at h
  split at h
  · next hc =>
    rw [Bool.and_eq_true] at hc
    obtain ⟨hp, he⟩ := hc
    obtain ⟨rest, hpeq, hshape⟩ := exactMatch_elim _ _ he
    have hr := route_login r.method rest hshape hp
    rw [← hpeq] at hr
    simp only [Option.some.injEq] at h
    subst h
    simp [handle, hr, forwardTo]
  · split at h
    · next hc =>
      rw [Bool.and_eq_true] at hc
      obtain ⟨hp, he⟩ := hc
      obtain ⟨rest, hpeq, hshape⟩ := exactMatch_elim _ _ he
      have hr := route_register r.method rest hshape hp
      rw [← hpeq] at hr
      simp only [Option.some.injEq] at h
      subst h
      simp [handle, hr, forwardTo]
    · split at h
      · next hc =>
        rw [Bool.and_eq_true] at hc
        obtain ⟨hp, he⟩ := hc
        obtain ⟨rest, hpeq, hshape⟩ := exactMatch_elim _ _ he
        have hr := route_packagesList r.method rest hshape hp
        rw [← hpeq] at hr
        simp only [Option.some.injEq] at h
        subst h
        simp [handle, hr, forwardTo]
      · split at h
        · next hc =>
          obtain ⟨rest, hpeq, hshape⟩ := mountMatch_elim _ _ hc
          have hr := route_notifP r.method rest hshape
          rw [← hpeq] at hr
          simp only [Option.some.injEq] at h
          subst h
          simp [handle, hr, forwardTo]
        · exact absurd h (by simp)

/-- C4: the outbound path of every forwarded request is the original request
URL with the leading `/v1` replaced by `/api`: (a) the rewrite maps
`/v1 ++ rest` to `/api ++ rest`, preserving every character of `rest` — in
particular the query string and any non-leading `/v1` occurrence; (b) a URL
without the leading `/v1` is left unchanged; (c) every forwarded request has
a URL of shape `/v1 ++ rest` and its outbound path is `/api ++ rest`. -/
theorem claim_C4_path_rewrite :
    (∀ rest : List Char,
      proxyReqPathResolver ('/' :: 'v' :: '1' :: rest) = '/' :: 'a' :: 'p' :: 'i' :: rest) ∧
    (∀ s : List Char, s.take 3 ≠ chars "/v1" → proxyReqPathResolver s = s) ∧
    (∀ (verify : List Char → String → Option Identity) (secret : String) (r : Req)
      (b : Backend) (ou : List Char) (hs : List (String × List Char)),
      handle verify secret r = .forward b ou hs →
        ∃ rest, r.url = chars "/v1" ++ rest ∧ ou = chars "/api" ++ rest) := by
  refine ⟨fun rest => rfl, ?_, ?_⟩
  · intro s h
    unfold proxyReqPathResolver
    split
    · next rest =>
      exact absurd (by simp [chars]) h
    · rfl
  · intro verify secret r b ou hs h
    have hou := handle_forward_url verify secret r b ou hs h
    rcases route_v1_shape r.method (reqPath r) with h5 | h5 | h5 | h5 | h5 | h5
    · rw [handle, h5] at h; simp at h
    · rw [handle, h5] at h; simp at h
    · rw [handle, h5] at h; simp at h
    · rw [handle, h5] at h; simp at h
    · rw [handle, h5] at h; simp at h
    · obtain ⟨t, hpath⟩ := h5
      have hurl : r.url = chars "/v1" ++ (t ++ r.url.dropWhile (fun c => c ≠ '?')) := by
        conv_lhs => rw [← List.takeWhile_append_dropWhile (p := fun c => c ≠ '?') (l := r.url)]
        rw [show r.url.takeWhile (fun c => c ≠ '?') = reqPath r from rfl, hpath,
          List.append_assoc]
      refine ⟨t ++ r.url.dropWhile (fun c => c ≠ '?'), hurl, ?_⟩
      rw [hou]
      conv_lhs => rw [hurl]
      simp [chars, proxyReqPathResolver]

/-! ### Header decoration lemmas -/

lemma authForward_eq_none (src h1 : List (String × List Char))
    (h : alookup "authorization" src = none) : authForward src h1 = h1 := by
  unfold authForward
  rw [h]

lemma authForward_eq_some (src h1 : List (String × List Char)) (v : List Char)
    (h : alookup "authorization" src = some v) :
    authForward src h1 = jset "authorization" v h1 := by
  unfold authForward
  rw [h]

lemma identityHeaders_noRole (uid : List Char) (h0 : List (String × List Char)) :
    identityHeaders (some ⟨uid, none⟩) h0 = jset "x-user-id" uid h0 := rfl

lemma identityHeaders_truthy (uid role : List Char) (h0 : List (String × List Char))
    (hne : role ≠ []) :
    identityHeaders (some ⟨uid, some role⟩) h0 =
      jset "x-user-role" role (jset "x-user-id" uid h0) := by
  show (if role ≠ [] then jset "x-user-role" role (jset "x-user-id" uid h0)
    else jset "x-user-id" uid h0) = _
  rw [if_pos hne]

lemma identityHeaders_emptyRole (uid : List Char) (h0 : List (String × List Char)) :
    identityHeaders (some ⟨uid, some []⟩) h0 = jset "x-user-id" uid h0 := by
  show (if ([] : List Char) ≠ [] then jset "x-user-role" [] (jset "x-user-id" uid h0)
    else jset "x-user-id" uid h0) = _
  rw [if_neg (by decide)]

lemma alookup_authForward_other (src h1 : List (String × List Char)) (k : String)
    (hk : k ≠ "authorization") : alookup k (authForward src h1) = alookup k h1 := by
  cases hau : alookup "authorization" src with
  | none => rw [authForward_eq_none src h1 hau]
  | some v =>
    rw [authForward_eq_some src h1 v hau, alookup_jset_other "authorization" k _ _ hk]

lemma alookup_decorate_xuserid (u : Identity) (r : Req) :
    alookup "x-user-id" (decorateHeaders (some u) r) = some u.userId := by
  obtain ⟨uid, urole⟩ := u
  show alookup "x-user-id" (authForward r.headers (identityHeaders (some ⟨uid, urole⟩) r.headers)) = _
  rw [alookup_authForward_other _ _ _ (by decide)]
  cases urole with
  | none => rw [identityHeaders_noRole, alookup_jset_self]
  | some role =>
    rcases eq_or_ne role [] with rfl | hne
    · rw [identityHeaders_emptyRole, alookup_jset_self]
    · rw [identityHeaders_truthy uid role r.headers hne,
        alookup_jset_other "x-user-role" "x-user-id" _ _ (by decide), alookup_jset_self]

lemma alookup_decorate_xuserrole_truthy (u : Identity) (role : List Char) (r : Req)
    (hrole : u.role = some role) (hne : role ≠ []) :
    alookup "x-user-role" (decorateHeaders (some u) r) = some role := by
  obtain ⟨uid, urole⟩ := u
  cases hrole
  show alookup "x-user-role"
    (authForward r.headers (identityHeaders (some ⟨uid, some role⟩) r.headers)) = _
  rw [alookup_authForward_other _ _ _ (by decide),
    identityHeaders_truthy uid role r.headers hne, alookup_jset_self]

lemma alookup_decorate_xuserrole_falsy (u : Identity) (r : Req)
    (h : u.role = none ∨ u.role = some []) :
    alookup "x-user-role" (decorateHeaders (some u) r) = alookup "x-user-role" r.headers := by
  obtain ⟨uid, urole⟩ := u
  show alookup "x-user-role"
    (authForward r.headers (identityHeaders (some ⟨uid, urole⟩) r.headers)) = _
  rw [alookup_authForward_other _ _ _ (by decide)]
  simp only at h
  rcases h with h | h <;> rw [h]
  · rw [identityHeaders_noRole, alookup_jset_other "x-user-id" "x-user-role" _ _ (by decide)]
  · rw [identityHeaders_emptyRole, alookup_jset_other "x-user-id" "x-user-role" _ _ (by decide)]

lemma alookup_decorate_none (r : Req) (k : String) :
    alookup k (decorateHeaders none r) = alookup k r.headers := by
  show alookup k (authForward r.headers (identityHeaders none r.headers)) = _
  cases hau : alookup "authorization" r.headers with
  | none =>
    rw [authForward_eq_none _ _ hau]
    rfl
  | some v =>
    rw [authForward_eq_some _ _ v hau]
    by_cases hk : k = "authorization"
    · subst hk
      rw [alookup_jset_self, hau]
    · rw [alookup_jset_other "authorization" k _ _ hk]
      rfl

lemma alookup_decorate_auth (user : Option Identity) (r : Req) (a : List Char)
    (h : alookup "authorization" r.headers = some a) :
    alookup "authorization" (decorateHeaders user r) = some a := by
  show alookup "authorization" (authForward r.headers (identityHeaders user r.headers)) = _
  rw [authForward_eq_some _ _ a h, alookup_jset_self]

/-! ### Claims C2, C5–C10 -/

/-- C2 is refuted by the code: with `JWT_SECRET` unset (and likewise empty),
the gateway does not fail at startup — server.js performs no startup check at
all — but silently verifies tokens against the literal default secret
`secret`.  This theorem evaluates the code's secret selection at the failing
configuration. -/
theorem claim_C2_default_secret :
    effectiveSecret none = "secret" ∧ effectiveSecret (some "") = "secret" := by
  constructor
  · rfl
  · simp [effectiveSecret]

/-- C5 counterexample: for a request forwarded with the validated identity
`{userId := "u1", role := "admin"}`, the outbound headers contain no header
named `user-id` (nor `user-role`): the derived headers the code writes are
named `x-user-id` and `x-user-role`. -/
theorem claim_C5_counterexample :
    alookup "user-id"
        (decorateHeaders (some ⟨chars "u1", some (chars "admin")⟩)
          { method := .GET, url := chars "/v1/user/me", headers := [] }) = none ∧
      alookup "user-role"
        (decorateHeaders (some ⟨chars "u1", some (chars "admin")⟩)
          { method := .GET, url := chars "/v1/user/me", headers := [] }) = none ∧
      alookup "x-user-id"
        (decorateHeaders (some ⟨chars "u1", some (chars "admin")⟩)
          { method := .GET, url := chars "/v1/user/me", headers := [] }) = some (chars "u1") ∧
      alookup "x-user-role"
        (decorateHeaders (some ⟨chars "u1", some (chars "admin")⟩)
          { method := .GET, url := chars "/v1/user/me", headers := [] }) = some (chars "admin") := by
  decide

/-- C5 as amended: the derived headers are named `x-user-id` and
`x-user-role`.  With a validated Identity the outbound request carries
`x-user-id` with the identity's userId and, when the role is present and
truthy, `x-user-role` with the role (so Identity {userId:"u1", role:"admin"}
yields `x-user-id` "u1" and `x-user-role` "admin"); with no Identity no
header is added; and an inbound Authorization header is forwarded
unchanged. -/
theorem claim_C5_amended_identity_headers (user : Option Identity) (r : Req) :
    (∀ u, user = some u →
      alookup "x-user-id" (decorateHeaders user r) = some u.userId ∧
      ∀ role, u.role = some role → role ≠ [] →
        alookup "x-user-role" (decorateHeaders user r) = some role) ∧
    (user = none → ∀ k, alookup k (decorateHeaders user r) = alookup k r.headers) ∧
    (∀ a, alookup "authorization" r.headers = some a →
      alookup "authorization" (decorateHeaders user r) = some a) := by
  refine ⟨?_, ?_, ?_⟩
  · rintro u rfl
    exact ⟨alookup_decorate_xuserid u r,
      fun role hrole hne => alookup_decorate_xuserrole_truthy u role r hrole hne⟩
  · rintro rfl k
    exact alookup_decorate_none r k
  · intro a ha
    exact alookup_decorate_auth user r a ha

/-- C5 witness: the spec's concrete case for the amended claim. -/
theorem claim_C5_amended_witness :
    alookup "x-user-id"
        (decorateHeaders (some ⟨chars "u1", some (chars "admin")⟩)
          { method := .GET, url := chars "/v1/user/me", headers := [] }) = some (chars "u1") ∧
      alookup "x-user-role"
        (decorateHeaders (some ⟨chars "u1", some (chars "admin")⟩)
          { method := .GET, url := chars "/v1/user/me", headers := [] }) = some (chars "admin") := by
  have h := (claim_C5_amended_identity_headers
    (some ⟨chars "u1", some (chars "admin")⟩)
    { method := .GET, url := chars "/v1/user/me", headers := [] }).1
    ⟨chars "u1", some (chars "admin")⟩ rfl
  exact ⟨h.1, h.2 (chars "admin") rfl (by decide)⟩

/-- C6: the documentation endpoint responds 200 for every combination of
settled fetch results (failed fetches are `none` entries), its paths and
components are exactly the successful backends' contributions merged
last-write-wins in the configured backend order, the fixed bearer
security scheme is always present under `securitySchemes`, and the global
security requirement is always attached. -/
theorem claim_C6_aggregation_resilience (results : List (Option SwaggerDoc)) :
    (swaggerHandler results).status = 200 ∧
    (∀ k, alookup k (swaggerHandler results).paths =
      lastWriteWins (fun d => d.paths) (successes results) k) ∧
    (∀ k, k ≠ "securitySchemes" → alookup k (swaggerHandler results).components =
      lastWriteWins (fun d => d.components) (successes results) k) ∧
    alookup "securitySchemes" (swaggerHandler results).components = some bearerSecuritySchemes ∧
    (swaggerHandler results).security = globalSecurity := by
  refine ⟨rfl, ?_, ?_, ?_, rfl⟩
  · intro k
    exact swaggerMerge_paths_alookup k results
  · intro k hk
    show alookup k (jset "securitySchemes" bearerSecuritySchemes (swaggerMerge results).2) = _
    rw [alookup_jset_other "securitySchemes" k _ _ hk]
    exact swaggerMerge_components_alookup k results
  · exact alookup_jset_self _ _ _

/-- C6 witness: two of the four backends fail, the others contribute;
statuses and merged contents follow from the theorem. -/
theorem claim_C6_witness :
    alookup "schemas"
      (swaggerHandler [some ⟨[("a", .str "one")], [("schemas", .str "s1")]⟩, none, none,
        some ⟨[("a", .str "two"), ("b", .str "three")], []⟩]).components =
    lastWriteWins (fun d => d.components)
      (successes [some ⟨[("a", .str "one")], [("schemas", .str "s1")]⟩, none, none,
        some ⟨[("a", .str "two"), ("b", .str "three")], []⟩]) "schemas" :=
  (claim_C6_aggregation_resilience _).2.2.1 "schemas" (by decide)

/-- C7 counterexample: a connection failure to a backend reaches the
gateway's error boundary (the proxy library passes non-timeout errors to
`next(err)`), which answers 500 — not a 502-class response; the gateway
defines no 502 translation anywhere. -/
theorem claim_C7_counterexample :
    (errorHandler "connect ECONNREFUSED 127.0.0.1:4001").1 = 500 ∧
    (errorHandler "connect ECONNREFUSED 127.0.0.1:4001").1 ≠ 502 := by
  constructor
  · simp [errorHandler]
  · simp [errorHandler]

/-- C7 as amended: every outbound proxied call carries the configured
30000 ms (30 s) timeout and is issued at most once per inbound request (no
retry); the gateway itself maps every error reaching its error boundary,
connection failures included, to a 500 `{error: message}` response — the
504-on-timeout behaviour belongs to the proxy library, and no 502
translation exists in the gateway's code. -/
theorem claim_C7_amended_timeout_no_retry :
    proxyTimeoutMs = 30000 ∧
    (∀ msg, (errorHandler msg).1 = 500) ∧
    (∀ (verify : List Char → String → Option Identity) (secret : String) (r : Req),
      (outboundCalls (handle verify secret r)).length ≤ 1) := by
  refine ⟨rfl, fun msg => rfl, fun verify secret r => ?_⟩
  cases handle verify secret r <;> simp [outboundCalls]

/-- C8: the gateway's response relay returns the backend's status, headers
and body unchanged — the source configures no response decorator, so beyond
the hop-specific handling of the transport layer nothing is altered. -/
theorem claim_C8_response_passthrough (resp : BackendResponse) :
    (relayResponse resp).status = resp.status ∧
    (relayResponse resp).headers = resp.headers ∧
    (relayResponse resp).body = resp.body :=
  ⟨rfl, rfl, rfl⟩

/-- C9: in the merged document, `components.securitySchemes` always equals
the single fixed bearerAuth scheme, whatever any backend contributed under
that key (the handler overwrites it wholesale), while every other key of the
backend components objects is merged last-write-wins. -/
theorem claim_C9_security_schemes_overwritten (results : List (Option SwaggerDoc)) :
    alookup "securitySchemes" (swaggerHandler results).components =
      some bearerSecuritySchemes ∧
    (∀ k, k ≠ "securitySchemes" →
      alookup k (swaggerHandler results).components =
        lastWriteWins (fun d => d.components) (successes results) k) := by
  refine ⟨alookup_jset_self _ _ _, ?_⟩
  intro k hk
  show alookup k (jset "securitySchemes" bearerSecuritySchemes (swaggerMerge results).2) = _
  rw [alookup_jset_other "securitySchemes" k _ _ hk]
  exact swaggerMerge_components_alookup k results

/-- C9 witness: a backend that contributes its own `securitySchemes` object
is overwritten wholesale; an unrelated key survives the merge. -/
theorem claim_C9_witness :
    alookup "securitySchemes"
      (swaggerHandler [some ⟨[], [("securitySchemes", .str "backend-supplied"),
        ("schemas", .str "s1")]⟩]).components = some bearerSecuritySchemes ∧
    alookup "schemas"
      (swaggerHandler [some ⟨[], [("securitySchemes", .str "backend-supplied"),
        ("schemas", .str "s1")]⟩]).components =
    lastWriteWins (fun d => d.components)
      (successes [some ⟨[], [("securitySchemes", .str "backend-supplied"),
        ("schemas", .str "s1")]⟩]) "schemas" :=
  ⟨(claim_C9_security_schemes_overwritten _).1,
    (claim_C9_security_schemes_overwritten _).2 "schemas" (by decide)⟩

/-- C10: for a request forwarded with a validated identity, `x-user-role` is
written to the outbound headers exactly when the decoded role is present and
truthy (non-empty); when the role is absent or falsy the decorator leaves
`x-user-role` as it was inbound, and in particular a valid token without a
role yields a forwarded request carrying `x-user-id` but no `x-user-role`. -/
theorem claim_C10_role_truthy (u : Identity) (r : Req) :
    (∀ role, u.role = some role → role ≠ [] →
      alookup "x-user-role" (decorateHeaders (some u) r) = some role) ∧
    (u.role = none ∨ u.role = some [] →
      alookup "x-user-role" (decorateHeaders (some u) r) =
        alookup "x-user-role" r.headers) ∧
    (u.role = none → alookup "x-user-role" r.headers = none →
      alookup "x-user-id" (decorateHeaders (some u) r) = some u.userId ∧
      alookup "x-user-role" (decorateHeaders (some u) r) = none) := by
  refine ⟨?_, ?_, ?_⟩
  · intro role hrole hne
    exact alookup_decorate_xuserrole_truthy u role r hrole hne
  · intro h
    exact alookup_decorate_xuserrole_falsy u r h
  · intro hrole hin
    refine ⟨alookup_decorate_xuserid u r, ?_⟩
    rw [alookup_decorate_xuserrole_falsy u r (Or.inl hrole), hin]

/-- C10 witness: a valid token whose payload has no role yields `x-user-id`
but no `x-user-role`. -/
theorem claim_C10_witness :
    alookup "x-user-id"
        (decorateHeaders (some ⟨chars "u2", none⟩)
          { method := .GET, url := chars "/v1/user/me", headers := [] }) =
        some (chars "u2") ∧
      alookup "x-user-role"
        (decorateHeaders (some ⟨chars "u2", none⟩)
          { method := .GET, url := chars "/v1/user/me", headers := [] }) = none :=
  (claim_C10_role_truthy ⟨chars "u2", none⟩
    { method := .GET, url := chars "/v1/user/me", headers := [] }).2.2 rfl (by decide)

/-- C1 witness: a GET under `/v1/worksheet` with no Authorization header is
rejected 401 with no outbound call. -/
theorem claim_C1_witness :
    (∃ msg, handle (fun _ _ => none) "k"
        { method := .GET, url := chars "/v1/worksheet/list", headers := [] } =
        .reject 401 false msg) ∧
      outboundCalls (handle (fun _ _ => none) "k"
        { method := .GET, url := chars "/v1/worksheet/list", headers := [] }) = [] :=
  claim_C1_protected_auth_401 (fun _ _ => none) "k"
    { method := .GET, url := chars "/v1/worksheet/list", headers := [] }
    (by decide) (by decide) (by decide)

/-- C3 witness: POST `/v1/user/login` with a malformed Authorization header
is still forwarded to the user backend. -/
theorem claim_C3_witness :
    handle (fun _ _ => none) "k"
      { method := .POST, url := chars "/v1/user/login",
        headers := [("authorization", chars "garbage")] } =
    .forward .user (proxyReqPathResolver (chars "/v1/user/login"))
      (decorateHeaders none
        { method := .POST, url := chars "/v1/user/login",
          headers := [("authorization", chars "garbage")] }) :=
  claim_C3_public_routes_forward (fun _ _ => none) "k"
    { method := .POST, url := chars "/v1/user/login",
      headers := [("authorization", chars "garbage")] }
    .user (by decide)

/-- C4 witness: the rewrite at two concrete URLs, one carrying a query
string holding another `/v1` occurrence and one without the prefix. -/
theorem claim_C4_witness :
    proxyReqPathResolver (chars "/v1/user/list?x=/v1") = chars "/api/user/list?x=/v1" ∧
    proxyReqPathResolver (chars "/health") = chars "/health" := by
  constructor
  · have h := claim_C4_path_rewrite.1 (chars "/user/list?x=/v1")
    simpa [chars] using h
  · exact claim_C4_path_rewrite.2.1 (chars "/health") (by decide)

end Gateway
